import Mathlib

/-!
Verification development for the cube kinematics and animation engine of
`src/components/RubiksCube.tsx` (a React/three.js 3×3×3 Rubik's cube).

The embedding models the numeric state with exact rationals (ℚ) in place of
IEEE doubles: every quantity the commit path rounds is integral in the states
the program reaches, so the exact-real semantics is the intended reading of
the float code, and `Math.round` is modelled faithfully as round-half-up.

Modelled source structures:
* `THREE.Vector3`                       → `Vec3`
* rotation state (`Matrix4` rotation block / quaternion) → `Mat3`
* a cubie `THREE.Mesh`                  → `Mesh` (identity, position, orientation)
* `RubiksCubeScene` cubie generation    → `initialGrid`
* `performMove`'s switch                → `parseMove`
* `CubeAnimation` (createRotationGroup / update / finish) → `CubeAnimation`
* the `RubiksCube` component's React state and effects   → `SchedState`, `stepEv`
-/

/-! ### Scalar arithmetic

The standard rational operations of Mathlib/Batteries (`Rat.add`, `Rat.mul`,
…) are `@[irreducible]`, so closed terms built from them cannot be evaluated
by `decide`/`rfl`. The model therefore uses the equivalent kernel-reducible
operations below, each proved equal to the standard one, so every theorem
about the model is simultaneously a statement about ordinary rational
arithmetic. Order (`≤`, `<`, `min`) and `Int.floor` reduce fine and are used
directly. -/

/-- Reducible rational addition. -/
def qadd (a b : ℚ) : ℚ :=
  mkRat (a.num * b.den + b.num * a.den) (a.den * b.den)

/-- Reducible rational negation. -/
def qneg (a : ℚ) : ℚ :=
  mkRat (-a.num) a.den

/-- Reducible rational subtraction. -/
def qsub (a b : ℚ) : ℚ :=
  qadd a (qneg b)

/-- Reducible rational multiplication. -/
def qmul (a b : ℚ) : ℚ :=
  mkRat (a.num * b.num) (a.den * b.den)

/-- Reducible rational inverse (`qinv 0 = 0`, as for `Rat.inv`). -/
def qinv (a : ℚ) : ℚ :=
  if 0 ≤ a.num then mkRat (a.den : ℤ) a.num.toNat
  else mkRat (-(a.den : ℤ)) a.num.natAbs

/-- Reducible rational division. -/
def qdiv (a b : ℚ) : ℚ :=
  qmul a (qinv b)

/-- Three-component rational vector, modelling `THREE.Vector3`. -/
structure Vec3 where
  x : ℚ
  y : ℚ
  z : ℚ
deriving DecidableEq, Repr

/-- `Vector3.getComponent`: component 0/1/2; other indices are never produced
by the move parser (three.js would throw there; we return 0). -/
def Vec3.comp (v : Vec3) (axis : Nat) : ℚ :=
  match axis with
  | 0 => v.x
  | 1 => v.y
  | 2 => v.z
  | _ => 0

/-- `Vector3.sub`, componentwise. -/
def Vec3.sub (v w : Vec3) : Vec3 :=
  ⟨qsub v.x w.x, qsub v.y w.y, qsub v.z w.z⟩

/-- `Vector3.multiplyScalar`. -/
def Vec3.smul (q : ℚ) (v : Vec3) : Vec3 :=
  ⟨qmul q v.x, qmul q v.y, qmul q v.z⟩

/-- The axis unit vector built in `createRotationGroup` and `finish`:
`new THREE.Vector3(axis === 0 ? 1 : 0, axis === 1 ? 1 : 0, axis === 2 ? 1 : 0)`. -/
def axisVector (axis : Nat) : Vec3 :=
  ⟨if axis = 0 then 1 else 0, if axis = 1 then 1 else 0, if axis = 2 then 1 else 0⟩

/-- JavaScript `Math.round`: round half toward positive infinity. -/
def jround (q : ℚ) : ℤ :=
  ⌊qadd q (mkRat 1 2)⌋

/-- The snap-to-grid step of `CubeAnimation.finish`: round every coordinate. -/
def roundVec (v : Vec3) : Vec3 :=
  ⟨(jround v.x : ℚ), (jround v.y : ℚ), (jround v.z : ℚ)⟩

/-- A 3×3 rational matrix: the rotation block of a `THREE.Matrix4`, also used
for a cubie's orientation (a quaternion is a rotation; composition is matrix
multiplication). -/
structure Mat3 where
  m11 : ℚ
  m12 : ℚ
  m13 : ℚ
  m21 : ℚ
  m22 : ℚ
  m23 : ℚ
  m31 : ℚ
  m32 : ℚ
  m33 : ℚ
deriving DecidableEq, Repr

/-- The identity rotation (a freshly constructed quaternion / Euler (0,0,0)). -/
def Mat3.id : Mat3 :=
  ⟨1, 0, 0, 0, 1, 0, 0, 0, 1⟩

/-- Matrix-vector application (`Vector3.applyMatrix4` on a rotation matrix). -/
def Mat3.mulVec (m : Mat3) (v : Vec3) : Vec3 :=
  ⟨qadd (qadd (qmul m.m11 v.x) (qmul m.m12 v.y)) (qmul m.m13 v.z),
   qadd (qadd (qmul m.m21 v.x) (qmul m.m22 v.y)) (qmul m.m23 v.z),
   qadd (qadd (qmul m.m31 v.x) (qmul m.m32 v.y)) (qmul m.m33 v.z)⟩

/-- Rotation composition. -/
def Mat3.mul (m n : Mat3) : Mat3 :=
  ⟨qadd (qadd (qmul m.m11 n.m11) (qmul m.m12 n.m21)) (qmul m.m13 n.m31),
   qadd (qadd (qmul m.m11 n.m12) (qmul m.m12 n.m22)) (qmul m.m13 n.m32),
   qadd (qadd (qmul m.m11 n.m13) (qmul m.m12 n.m23)) (qmul m.m13 n.m33),
   qadd (qadd (qmul m.m21 n.m11) (qmul m.m22 n.m21)) (qmul m.m23 n.m31),
   qadd (qadd (qmul m.m21 n.m12) (qmul m.m22 n.m22)) (qmul m.m23 n.m32),
   qadd (qadd (qmul m.m21 n.m13) (qmul m.m22 n.m23)) (qmul m.m23 n.m33),
   qadd (qadd (qmul m.m31 n.m11) (qmul m.m32 n.m21)) (qmul m.m33 n.m31),
   qadd (qadd (qmul m.m31 n.m12) (qmul m.m32 n.m22)) (qmul m.m33 n.m32),
   qadd (qadd (qmul m.m31 n.m13) (qmul m.m32 n.m23)) (qmul m.m33 n.m33)⟩

/-- `THREE.Matrix4.makeRotationAxis` (Rodrigues formula), with the cosine and
sine of the angle passed exactly. `finish` calls it with angle
`(Math.PI / 2) * direction`, whose exact cosine is 0 and exact sine is
`direction` (for `direction ∈ {-1, 1}`). -/
def makeRotationAxis (u : Vec3) (c s : ℚ) : Mat3 :=
  let t := qsub 1 c
  ⟨qadd (qmul (qmul t u.x) u.x) c,
   qsub (qmul (qmul t u.x) u.y) (qmul s u.z),
   qadd (qmul (qmul t u.x) u.z) (qmul s u.y),
   qadd (qmul (qmul t u.x) u.y) (qmul s u.z),
   qadd (qmul (qmul t u.y) u.y) c,
   qsub (qmul (qmul t u.y) u.z) (qmul s u.x),
   qsub (qmul (qmul t u.x) u.z) (qmul s u.y),
   qadd (qmul (qmul t u.y) u.z) (qmul s u.x),
   qadd (qmul (qmul t u.z) u.z) c⟩

/-- The exact rotation matrix `finish` builds:
`new THREE.Matrix4().makeRotationAxis(axisVector, (Math.PI / 2) * direction)`,
with the trigonometric values taken exactly. -/
def rotationMatrix (axis : Nat) (direction : ℤ) : Mat3 :=
  makeRotationAxis (axisVector axis) 0 (direction : ℚ)

/-- Spec-side definition: the textbook algebraic 90°-rotation about a
coordinate axis, sign given by `direction`, written out componentwise
(section 4.4 of the spec: the "exact algebraic 90°-rotation-about-axis
transform"). To be compared with the source-side `rotationMatrix` path. -/
def algebraicRot90 (axis : Nat) (direction : ℤ) (v : Vec3) : Vec3 :=
  match axis with
  | 0 => ⟨v.x, qmul (qneg (direction : ℚ)) v.z, qmul (direction : ℚ) v.y⟩
  | 1 => ⟨qmul (direction : ℚ) v.z, v.y, qmul (qneg (direction : ℚ)) v.x⟩
  | 2 => ⟨qmul (qneg (direction : ℚ)) v.y, qmul (direction : ℚ) v.x, v.z⟩
  | _ => ⟨0, 0, 0⟩

/-- A cubie mesh: identity (creation index), current position, current
orientation. Face colors are immutable after construction and play no role in
the claims, so they are omitted. -/
structure Mesh where
  id : Nat
  pos : Vec3
  quat : Mat3
deriving DecidableEq, Repr

/-- The 27 cubies generated by `RubiksCubeScene` (x, then y, then z, each from
-1 to 1), in the order they are pushed into the group. -/
def initialGrid : List Mesh :=
  (List.range 27).map (fun n =>
    { id := n
      pos := ⟨(((n : ℤ) / 9 - 1 : ℤ) : ℚ), (((n : ℤ) / 3 % 3 - 1 : ℤ) : ℚ), (((n : ℤ) % 3 - 1 : ℤ) : ℚ)⟩
      quat := Mat3.id })

/-- A parsed move: `performMove`'s `(axis, index, direction)` triple. -/
structure MoveData where
  axis : Nat
  index : ℤ
  direction : ℤ
deriving DecidableEq, Repr

/-- The switch statement of `RubiksCubeScene.performMove`: move token to
`(axis, index, direction)`; the default case returns without producing a
move. -/
def parseMove (move : String) : Option MoveData :=
  if move = "U" then some ⟨1, 1, -1⟩
  else if move = "U'" then some ⟨1, 1, 1⟩
  else if move = "D" then some ⟨1, -1, 1⟩
  else if move = "D'" then some ⟨1, -1, -1⟩
  else if move = "R" then some ⟨0, 1, -1⟩
  else if move = "R'" then some ⟨0, 1, 1⟩
  else if move = "L" then some ⟨0, -1, 1⟩
  else if move = "L'" then some ⟨0, -1, -1⟩
  else if move = "F" then some ⟨2, 1, -1⟩
  else if move = "F'" then some ⟨2, 1, 1⟩
  else if move = "B" then some ⟨2, -1, 1⟩
  else if move = "B'" then some ⟨2, -1, -1⟩
  else none

/-- The twelve recognized move tokens. -/
def moveTokens : List String :=
  ["U", "U'", "D", "D'", "R", "R'", "L", "L'", "F", "F'", "B", "B'"]

/-- A cubie detached into the rotating pivot, together with the pre-rotation
pose captured in `originalPositions` / `originalQuaternions`. The mesh's own
position has been re-expressed relative to the pivot
(`child.position.sub(axisVector * index)`). -/
structure Detached where
  mesh : Mesh
  origPos : Vec3
  origQuat : Mat3
deriving DecidableEq, Repr

/-- The transient rotation pivot (`this.rotationGroup`): its world position,
its current rotation about the move axis (stored as the coefficient of π/2,
i.e. the display angle is `(π/2) · angle`), and its children in insertion
order. -/
structure Pivot where
  pos : Vec3
  angle : ℚ
  children : List Detached
deriving DecidableEq, Repr

/-- The `group.children.forEach` loop of `createRotationGroup`, with
JavaScript array semantics made explicit: `forEach` caches the length before
the loop (`fuel`), visits ascending indices `k`, skips indices past the
current length, and `group.remove(child)` splices the array in place — so
when the element at the visited index is removed, the element that shifts
into that index is never visited. Returns (remaining children, detached
cubies in pivot insertion order). -/
def detachGo (axis : Nat) (index : ℤ) :
    Nat → Nat → List Mesh → List Detached → List Mesh × List Detached
  | 0, _, arr, acc => (arr, acc)
  | fuel + 1, k, arr, acc =>
    match arr.get? k with
    | none => (arr, acc)
    | some c =>
      if jround (Vec3.comp c.pos axis) = index then
        detachGo axis index fuel (k + 1) (arr.eraseIdx k)
          (acc ++ [{ mesh := { c with pos := Vec3.sub c.pos (Vec3.smul (index : ℚ) (axisVector axis)) }
                     origPos := c.pos
                     origQuat := c.quat }])
      else
        detachGo axis index fuel (k + 1) arr acc

/-- `CubeAnimation.createRotationGroup`: partition the group's children by
`Math.round(position.getComponent(axis)) === index` (with the in-place-removal
iteration above), move the matches under a fresh pivot positioned at
`axisVector * index`, re-expressing each match's position relative to the
pivot. Returns (remaining static children, the pivot). -/
def createRotationGroup (g : List Mesh) (axis : Nat) (index : ℤ) :
    List Mesh × Pivot :=
  let r := detachGo axis index g.length 0 g []
  (r.1, { pos := Vec3.smul (index : ℚ) (axisVector axis), angle := 0, children := r.2 })

/-- The `CubeAnimation` class state: the move being animated, progress in
[0,1], the fixed duration 0.3, and the transient pivot (None once `finish`
has torn it down). -/
structure CubeAnimation where
  axis : Nat
  index : ℤ
  direction : ℤ
  progress : ℚ
  duration : ℚ
  rotationGroup : Option Pivot
deriving DecidableEq, Repr

/-- The `CubeAnimation` constructor: store the move, set `progress = 0`,
`duration = 0.3`, and run `createRotationGroup` (which detaches the layer from
the shared group). Returns the animation together with the group's remaining
static children. -/
def CubeAnimation.mk' (g : List Mesh) (axis : Nat) (index direction : ℤ) :
    CubeAnimation × List Mesh :=
  let r := createRotationGroup g axis index
  ({ axis := axis
     index := index
     direction := direction
     progress := 0
     duration := mkRat 3 10
     rotationGroup := some r.2 }, r.1)

/-- `easeInOutCubic(x) = x < 0.5 ? 4x³ : 1 - (-2x+2)³/2`. -/
def easeInOutCubic (t : ℚ) : ℚ :=
  if t < mkRat 1 2 then qmul 4 (qmul t (qmul t t))
  else qsub 1 (qdiv (qmul (qadd (qmul (-2) t) 2) (qmul (qadd (qmul (-2) t) 2) (qadd (qmul (-2) t) 2))) 2)

/-- `CubeAnimation.update(delta)`: if the pivot is gone, report completion at
once; otherwise advance `progress` by `delta / duration` clamped to 1, set the
pivot's display rotation to `(π/2) · ease(progress) · direction` (we store the
coefficient of π/2), and report whether `progress ≥ 1`. -/
def CubeAnimation.update (a : CubeAnimation) (delta : ℚ) :
    CubeAnimation × Bool :=
  match a.rotationGroup with
  | none => (a, true)
  | some piv =>
    let p := min (qadd a.progress (qdiv delta a.duration)) 1
    let eased := easeInOutCubic p
    ({ a with
       progress := p
       rotationGroup := some { piv with angle := qmul eased (a.direction : ℚ) } },
     decide (1 ≤ p))

/-- The commit applied to one detached cubie in `CubeAnimation.finish`: the
new position is the exact 90°-rotation matrix applied to the pre-rotation
position, each coordinate rounded (`Math.round`); the orientation is set by
`child.quaternion.copy(originalQuaternion)` immediately followed by
`child.rotation.set(0, 0, 0)` — three.js keeps an `Object3D`'s Euler rotation
and quaternion synchronized, so the Euler reset overwrites the quaternion
with the identity. -/
def commitMesh (axis : Nat) (direction : ℤ) (d : Detached) : Mesh :=
  { d.mesh with
    pos := roundVec ((rotationMatrix axis direction).mulVec d.origPos)
    quat := Mat3.id }

/-- `CubeAnimation.finish`: if the pivot is already gone, return doing nothing
(in particular without invoking `onComplete`). Otherwise commit every pivot
child back into the group (appended in pivot order), destroy the pivot, and
invoke `onComplete`. Returns (updated animation, updated group children,
whether `onComplete` was invoked). -/
def CubeAnimation.finish (a : CubeAnimation) (g : List Mesh) :
    CubeAnimation × List Mesh × Bool :=
  match a.rotationGroup with
  | none => (a, g, false)
  | some piv =>
    ({ a with rotationGroup := none },
     g ++ piv.children.map (commitMesh a.axis a.direction), true)

/-- A sequence of `update` calls, one per frame delta. -/
def applyUpdates (a : CubeAnimation) : List ℚ → CubeAnimation
  | [] => a
  | d :: ds => applyUpdates (a.update d).1 ds

/-- One whole committed move: construct the animation (detaching the layer)
and run `finish`. By the trajectory-independence of the commit this is the
grid effect of a move regardless of how many frames the animation took. -/
def commitMove (g : List Mesh) (m : MoveData) : List Mesh :=
  let r := CubeAnimation.mk' g m.axis m.index m.direction
  (r.1.finish r.2).2.1

/-- A sequence of committed moves. -/
def applyMoves (g : List Mesh) (ms : List MoveData) : List Mesh :=
  ms.foldl commitMove g

/-- The `RubiksCube` component's state: the pending-move queue, the current
animation (paired with the `newMoveQueue` snapshot its completion callback
captured), the shared group's static children, and the `isAnimating` flag.
The three log fields are instrumentation recording, in order, every move
enqueued, every animation started, and every animation completed. -/
structure SchedState where
  queue : List MoveData
  current : Option (CubeAnimation × List MoveData)
  group : List Mesh
  isAnimating : Bool
  enqLog : List MoveData
  startLog : List MoveData
  compLog : List MoveData
deriving DecidableEq, Repr

/-- The move a `CubeAnimation` is animating. -/
def moveOf (a : CubeAnimation) : MoveData :=
  ⟨a.axis, a.index, a.direction⟩

/-- The queue-processing effect: if the queue is non-empty and no animation is
current, construct a `CubeAnimation` for the head move (this detaches the
layer from the group), remember `newMoveQueue` (the queue's tail — the
snapshot the completion callback will install), and set `isAnimating`. The
queue state itself is not changed at start time. -/
def processQueue (s : SchedState) : SchedState :=
  match s.queue, s.current with
  | m :: rest, none =>
    let r := CubeAnimation.mk' s.group m.axis m.index m.direction
    { s with
      isAnimating := true
      group := r.2
      current := some (r.1, rest)
      startLog := s.startLog ++ [m] }
  | _, _ => s

/-- An external event: a move token arriving (`performMove`), or a render
frame with elapsed time `delta` (`useFrame`). -/
inductive Ev where
  | enq (token : String)
  | frame (delta : ℚ)

/-- One event step of the component, followed by the queue-processing effect
wherever React would re-run it. `enq`: `performMove` parses the token; an
unrecognized token returns without touching any state; a recognized move is
appended to the queue tail. `frame`: `useFrame` runs `update(delta)` on the
current animation; on completion it runs `finish`, whose `onComplete`
callback clears the current animation and installs the captured
`newMoveQueue` snapshot as the queue (clearing `isAnimating` when that
snapshot is empty). -/
def stepEv (s : SchedState) (e : Ev) : SchedState :=
  match e with
  | .enq tok =>
    match parseMove tok with
    | none => s
    | some m =>
      processQueue { s with queue := s.queue ++ [m], enqLog := s.enqLog ++ [m] }
  | .frame delta =>
    match s.current with
    | none => s
    | some (a, snap) =>
      let u := a.update delta
      if u.2 then
        let f := u.1.finish s.group
        if f.2.2 then
          processQueue { s with
            group := f.2.1
            current := none
            queue := snap
            isAnimating := if snap.isEmpty then false else s.isAnimating
            compLog := s.compLog ++ [moveOf f.1] }
        else
          { s with current := some (f.1, snap), group := f.2.1 }
      else
        { s with current := some (u.1, snap) }

/-- The component's state right after mount: everything empty, the 27-cubie
grid in place. -/
def initState : SchedState :=
  { queue := [], current := none, group := initialGrid, isAnimating := false,
    enqLog := [], startLog := [], compLog := [] }

/-- Run a sequence of events. -/
def runEvents (s : SchedState) (es : List Ev) : SchedState :=
  es.foldl stepEv s

theorem qadd_eq (a b : ℚ) : qadd a b = a + b := by
  rw [qadd, Rat.mkRat_eq_divInt, Rat.divInt_eq_div]
  push_cast
  conv_rhs => rw [← Rat.num_div_den a, ← Rat.num_div_den b]
  have ha : ((a.den : ℚ)) ≠ 0 := by positivity
  have hb : ((b.den : ℚ)) ≠ 0 := by positivity
  field_simp

theorem qneg_eq (a : ℚ) : qneg a = -a := by
  rw [qneg, Rat.mkRat_eq_divInt, Rat.divInt_eq_div]
  push_cast
  conv_rhs => rw [← Rat.num_div_den a]
  have ha : ((a.den : ℚ)) ≠ 0 := by positivity
  field_simp

theorem qsub_eq (a b : ℚ) : qsub a b = a - b := by
  rw [qsub, qadd_eq, qneg_eq, sub_eq_add_neg]

theorem qmul_eq (a b : ℚ) : qmul a b = a * b := by
  rw [qmul, Rat.mkRat_eq_divInt, Rat.divInt_eq_div]
  push_cast
  conv_rhs => rw [← Rat.num_div_den a, ← Rat.num_div_den b]
  have ha : ((a.den : ℚ)) ≠ 0 := by positivity
  have hb : ((b.den : ℚ)) ≠ 0 := by positivity
  field_simp

theorem qinv_eq (a : ℚ) : qinv a = a⁻¹ := by
  rw [qinv, Rat.inv_def']
  by_cases h : 0 ≤ a.num
  · rw [if_pos h, Rat.mkRat_eq_divInt, Int.toNat_of_nonneg h]
  · rw [if_neg h, Rat.mkRat_eq_divInt,
      Int.ofNat_natAbs_of_nonpos (le_of_not_le h)]
    rw [Rat.divInt_neg, neg_neg]

theorem qdiv_eq (a b : ℚ) : qdiv a b = a / b := by
  rw [qdiv, qmul_eq, qinv_eq, div_eq_mul_inv]

/-- C2: the pending-move queue loses moves enqueued while an animation is in
flight. Concrete run: enqueue `"U"` (its animation starts at once, capturing
the snapshot `newMoveQueue = []`), enqueue `"D"` mid-flight (it is appended to
the queue), then one frame long enough to complete `"U"`. The completion
callback installs the stale snapshot, so afterwards the queue is empty, no
animation is current, and only `"U"` was ever started: the enqueued `"D"` is
lost, refuting "the queue never loses a move / every enqueued move is
eventually started". -/
theorem queue_loses_midflight_enqueue :
    (runEvents initState [Ev.enq "U", Ev.enq "D", Ev.frame 1]).enqLog =
      [⟨1, 1, -1⟩, ⟨1, -1, 1⟩] ∧
    (runEvents initState [Ev.enq "U", Ev.enq "D", Ev.frame 1]).startLog =
      [⟨1, 1, -1⟩] ∧
    (runEvents initState [Ev.enq "U", Ev.enq "D", Ev.frame 1]).queue = [] ∧
    (runEvents initState [Ev.enq "U", Ev.enq "D", Ev.frame 1]).current = none := by
  refine ⟨?_, ?_, ?_, ?_⟩ <;> rfl

/-- C4: on commit the cubie's orientation is not composed with the 90°
rotation. For the `"U"` move from the initial grid, the first detached cubie
(id 6, pre-rotation orientation = identity) is committed with orientation
exactly the identity (the code copies the pre-rotation quaternion and then
zeroes the Euler rotation, which resets the quaternion), whereas the claimed
orientation — the pre-rotation orientation composed with the exact 90°
rotation about Y — differs from the identity. -/
theorem commit_orientation_reset_not_composed :
    ((commitMove initialGrid ⟨1, 1, -1⟩).filter (fun m => m.id == 6)).map
        Mesh.quat = [Mat3.id] ∧
    Mat3.mul Mat3.id (rotationMatrix 1 (-1)) ≠ Mat3.id := by
  exact ⟨by rfl, by decide⟩

/-- C5: layer extraction does not select all 9 matching cubies. On the initial
grid, 9 cubies satisfy `round(position.x) = 1`, but `createRotationGroup` for
`(axis 0, slice 1)` detaches only 5 of them: `group.remove` inside
`children.forEach` splices the array being iterated, so every element that
shifts into the visited index is skipped. -/
theorem layer_extraction_skips_cubies :
    (initialGrid.filter (fun m => decide (jround (Vec3.comp m.pos 0) = 1))).length = 9 ∧
    (createRotationGroup initialGrid 0 1).2.children.length = 5 := by
  exact ⟨by rfl, by rfl⟩

/-- C6: the at-rest distinctness invariant fails. After committing the `"R"`
move `(axis 0, slice 1, direction -1)` twice from the initial grid, the cubie
that started at `(1, 0, 1)` (id 23) and the cubie that started at `(1, 1, 0)`
(id 25) both occupy position `(1, 1, 0)`: the skipped-cubie sets of the two
extractions differ, so only part of the layer rotates and rotated cubies land
on unrotated ones. -/
theorem grid_collision_after_two_moves :
    ((applyMoves initialGrid [⟨0, 1, -1⟩, ⟨0, 1, -1⟩]).filter
        (fun m => decide (m.pos = ⟨1, 1, 0⟩))).map Mesh.id = [25, 23] := by
  rfl

/-- C8 counterexample: layer extraction does not reject or no-op when
`slice = 0`. On the initial grid with `(axis 1, slice 0)` it detaches six
center-layer cubies (mutating the grid's static collection), instead of
rejecting the selection. -/
theorem slice_zero_not_rejected_cex :
    (createRotationGroup initialGrid 1 0).2.children.map (fun d => d.mesh.id) =
      [3, 5, 12, 14, 21, 23] ∧
    (createRotationGroup initialGrid 1 0).1 ≠ initialGrid := by
  exact ⟨by rfl, by decide⟩

/-- C9: the inverse law fails. Committing `"R"` `(axis 0, slice 1, -1)` and
then `"R'"` `(axis 0, slice 1, +1)` from the initial grid does not restore the
grid: the cubie with id 20 starts at `(1, -1, 1)`, is detached and rotated by
the first move, but is skipped by the second move's extraction (the two
in-place-removal traversals skip different cubies), so it ends at
`(1, 1, 1)`. -/
theorem inverse_law_fails_eval :
    ((applyMoves initialGrid [⟨0, 1, -1⟩, ⟨0, 1, 1⟩]).filter
        (fun m => m.id == 20)).map Mesh.pos = [⟨1, 1, 1⟩] ∧
    (initialGrid.filter (fun m => m.id == 20)).map Mesh.pos = [⟨1, -1, 1⟩] ∧
    (⟨1, 1, 1⟩ : Vec3) ≠ ⟨1, -1, 1⟩ := by
  refine ⟨by rfl, by rfl, by decide⟩

/-- C3: parsing maps each of the twelve tokens to exactly the section-4.1
triple (with axes X = 0, Y = 1, Z = 2), and any other string parses to
nothing, in which case `performMove` returns before calling
`onCubeInitialized`: the enqueue event leaves the whole component state —
queue, cube grid, current animation, flags and logs — unchanged. -/
theorem parse_table_exact :
    parseMove "U" = some ⟨1, 1, -1⟩ ∧ parseMove "U'" = some ⟨1, 1, 1⟩ ∧
    parseMove "D" = some ⟨1, -1, 1⟩ ∧ parseMove "D'" = some ⟨1, -1, -1⟩ ∧
    parseMove "R" = some ⟨0, 1, -1⟩ ∧ parseMove "R'" = some ⟨0, 1, 1⟩ ∧
    parseMove "L" = some ⟨0, -1, 1⟩ ∧ parseMove "L'" = some ⟨0, -1, -1⟩ ∧
    parseMove "F" = some ⟨2, 1, -1⟩ ∧ parseMove "F'" = some ⟨2, 1, 1⟩ ∧
    parseMove "B" = some ⟨2, -1, 1⟩ ∧ parseMove "B'" = some ⟨2, -1, -1⟩ ∧
    ∀ tok, tok ∉ moveTokens →
      parseMove tok = none ∧ ∀ s, stepEv s (Ev.enq tok) = s := by
  refine ⟨rfl, rfl, rfl, rfl, rfl, rfl, rfl, rfl, rfl, rfl, rfl, rfl, ?_⟩
  intro tok h
  simp only [moveTokens, List.mem_cons, List.not_mem_nil, or_false, not_or] at h
  obtain ⟨h1, h2, h3, h4, h5, h6, h7, h8, h9, h10, h11, h12⟩ := h
  have hp : parseMove tok = none := by
    simp [parseMove, h1, h2, h3, h4, h5, h6, h7, h8, h9, h10, h11, h12]
  exact ⟨hp, fun s => by simp [stepEv, hp]⟩

/-- Witness for C3 at the concrete unrecognized token `"X"`. -/
theorem parse_table_exact_witness :
    parseMove "X" = none ∧ stepEv initState (Ev.enq "X") = initState := by
  have h := parse_table_exact.2.2.2.2.2.2.2.2.2.2.2.2 "X" (by decide)
  exact ⟨h.1, h.2 initState⟩

/-- C10: once `finish` has run (the pivot is destroyed, `rotationGroup` is
gone), `update` immediately reports completion without changing the
animation, and a repeated `finish` returns without moving any cubie and
without invoking the completion callback again. -/
theorem finished_session_is_noop (a : CubeAnimation) (g : List Mesh) (delta : ℚ)
    (h : a.rotationGroup = none) :
    a.update delta = (a, true) ∧ a.finish g = (a, g, false) := by
  constructor
  · simp [CubeAnimation.update, h]
  · simp [CubeAnimation.finish, h]

/-- The animation session for a `"U"` move from the initial grid, after its
first `finish`, paired with the committed group. -/
def postFinishU : CubeAnimation × List Mesh × Bool :=
  ((CubeAnimation.mk' initialGrid 1 1 (-1)).1).finish
    (CubeAnimation.mk' initialGrid 1 1 (-1)).2

/-- Witness for C10: the already-finished `"U"` session is inert under both
`update` and a second `finish`. -/
theorem finished_session_is_noop_witness :
    postFinishU.1.update 1 = (postFinishU.1, true) ∧
    postFinishU.1.finish postFinishU.2.1 = (postFinishU.1, postFinishU.2.1, false) :=
  finished_session_is_noop postFinishU.1 postFinishU.2.1 1 (by rfl)

/-- A list is a permutation of any of its elements consed onto the list with
that index erased. -/
theorem perm_cons_eraseIdx {α : Type} :
    ∀ (l : List α) (k : Nat) (c : α), l.get? k = some c →
      List.Perm l (c :: l.eraseIdx k) := by
  intro l
  induction l with
  | nil => intro k c h; simp [List.get?] at h
  | cons a t ih =>
    intro k c h
    cases k with
    | zero =>
      simp only [List.get?] at h
      cases h
      simp [List.eraseIdx]
    | succ k =>
      simp only [List.get?] at h
      have ht := ih k c h
      simp only [List.eraseIdx]
      exact (ht.cons a).trans (List.Perm.swap c a _)

/-- The in-place-removal traversal never invents or loses a mesh: the ids of
the remaining children together with the ids of the detached cubies are a
permutation of the input ids (with the accumulator's). -/
theorem detachGo_perm (axis : Nat) (index : ℤ) :
    ∀ (fuel k : Nat) (arr : List Mesh) (acc : List Detached),
      List.Perm
        ((detachGo axis index fuel k arr acc).1.map Mesh.id ++
          (detachGo axis index fuel k arr acc).2.map (fun d => d.mesh.id))
        (arr.map Mesh.id ++ acc.map (fun d => d.mesh.id)) := by
  intro fuel
  induction fuel with
  | zero => intro k arr acc; simp [detachGo]
  | succ fuel ih =>
    intro k arr acc
    rw [detachGo]
    cases hget : arr.get? k with
    | none => simp
    | some c =>
      dsimp only
      by_cases hm : jround (Vec3.comp c.pos axis) = index
      · rw [if_pos hm]
        refine (ih (k + 1) (arr.eraseIdx k) _).trans ?_
        have h1 : List.Perm (arr.map Mesh.id) (c.id :: (arr.eraseIdx k).map Mesh.id) := by
          simpa using (perm_cons_eraseIdx arr k c hget).map Mesh.id
        have h2 : ((acc ++ [({ mesh := { c with pos := Vec3.sub c.pos (Vec3.smul (index : ℚ) (axisVector axis)) }
                               origPos := c.pos
                               origQuat := c.quat } : Detached)]).map (fun d => d.mesh.id)) =
            acc.map (fun d => d.mesh.id) ++ [c.id] := by simp
        rw [h2, ← List.append_assoc]
        refine (List.perm_append_comm).trans ?_
        have h3 : ([c.id] ++ ((arr.eraseIdx k).map Mesh.id ++ acc.map (fun d => d.mesh.id))) =
            (c.id :: (arr.eraseIdx k).map Mesh.id) ++ acc.map (fun d => d.mesh.id) := by
          simp
        rw [h3]
        exact h1.symm.append_right _
      · rw [if_neg hm]
        exact ih (k + 1) arr acc

/-- C8 amended: layer extraction performs no validation at all. For every
grid, axis and slice — including slice = 0 and selections of any cardinality —
it unconditionally detaches the matching cubies it visits and proceeds, and
the detached and remaining children always partition the grid\'s cubies. -/
theorem extraction_never_validates (g : List Mesh) (axis : Nat) (index : ℤ) :
    List.Perm
      ((createRotationGroup g axis index).1.map Mesh.id ++
        (createRotationGroup g axis index).2.children.map (fun d => d.mesh.id))
      (g.map Mesh.id) := by
  simpa [createRotationGroup] using detachGo_perm axis index g.length 0 g []

/-- The moves of the at-most-one in-flight animation session. -/
def inFlightMoves (s : SchedState) : List MoveData :=
  (s.current.map (fun p => moveOf p.1)).toList

/-- `update` never changes which move an animation is for. -/
theorem moveOf_update (a : CubeAnimation) (d : ℚ) :
    moveOf (a.update d).1 = moveOf a := by
  cases h : a.rotationGroup <;> simp [CubeAnimation.update, h, moveOf]

/-- `finish` never changes which move an animation is for. -/
theorem moveOf_finish (a : CubeAnimation) (g : List Mesh) :
    moveOf (a.finish g).1 = moveOf a := by
  cases h : a.rotationGroup <;> simp [CubeAnimation.finish, h, moveOf]

/-- The animation the scheduler constructs carries exactly the admitted
move. -/
theorem moveOf_mk (g : List Mesh) (m : MoveData) :
    moveOf (CubeAnimation.mk' g m.axis m.index m.direction).1 = m := rfl

/-- The queue-processing effect preserves the serialization invariant: it
starts a move only from the state `current = none`, appending that move to
the start log and making it the single in-flight move. -/
theorem processQueue_inv (s : SchedState)
    (h : s.startLog = s.compLog ++ inFlightMoves s) :
    (processQueue s).startLog =
      (processQueue s).compLog ++ inFlightMoves (processQueue s) := by
  rw [processQueue]
  cases hq : s.queue with
  | nil => exact h
  | cons m rest =>
    cases hc : s.current with
    | some p => exact h
    | none =>
      have h0 : inFlightMoves s = [] := by simp [inFlightMoves, hc]
      rw [h, h0, List.append_nil]
      simp [inFlightMoves, moveOf_mk]

/-- One event step preserves the serialization invariant. -/
theorem stepEv_inv (s : SchedState) (e : Ev)
    (h : s.startLog = s.compLog ++ inFlightMoves s) :
    (stepEv s e).startLog =
      (stepEv s e).compLog ++ inFlightMoves (stepEv s e) := by
  cases e with
  | enq tok =>
    rw [stepEv]
    cases hp : parseMove tok with
    | none => exact h
    | some m =>
      exact processQueue_inv _ (by simpa [inFlightMoves] using h)
  | frame delta =>
    rw [stepEv]
    cases hc : s.current with
    | none => exact h
    | some p =>
      obtain ⟨a, snap⟩ := p
      have hin : inFlightMoves s = [moveOf a] := by simp [inFlightMoves, hc]
      dsimp only
      by_cases hu : (a.update delta).2
      · rw [if_pos hu]
        by_cases hf : ((a.update delta).1.finish s.group).2.2
        · rw [if_pos hf]
          refine processQueue_inv _ ?_
          simp [inFlightMoves, moveOf_finish, moveOf_update, h, hin, hc]
        · rw [if_neg hf]
          simp [inFlightMoves, moveOf_finish, moveOf_update, h, hin, hc]
      · rw [if_neg hu]
        simp [inFlightMoves, moveOf_update, h, hin, hc]

/-- C7: the scheduler serializes moves. First conjunct: after any event
sequence from the mounted initial state, the list of started moves is exactly
the list of completed moves followed by the (at most one) in-flight move —
so no move ever begins while another is running or committing, and moves
complete in exactly the order they were started. Second conjunct: the
queue-processing effect starts nothing unless the queue is non-empty and no
animation is in flight. -/
theorem scheduler_serializes_moves :
    (∀ es : List Ev,
      (runEvents initState es).startLog =
        (runEvents initState es).compLog ++ inFlightMoves (runEvents initState es)) ∧
    (∀ s : SchedState, s.queue = [] ∨ s.current ≠ none → processQueue s = s) := by
  constructor
  · intro es
    have main : ∀ (es : List Ev) (s : SchedState),
        s.startLog = s.compLog ++ inFlightMoves s →
        (runEvents s es).startLog =
          (runEvents s es).compLog ++ inFlightMoves (runEvents s es) := by
      intro es
      induction es with
      | nil => intro s hs; exact hs
      | cons e es ih => intro s hs; exact ih _ (stepEv_inv s e hs)
    exact main es initState rfl
  · intro s h
    rw [processQueue]
    cases hq : s.queue with
    | nil => rfl
    | cons m rest =>
      cases hc : s.current with
      | some p => rfl
      | none =>
        rcases h with h | h
        · rw [hq] at h; cases h
        · exact absurd hc h

/-- Witness for C7: one enqueue event, and the no-start guard on the idle
mounted state (whose queue is empty). -/
theorem scheduler_serializes_moves_witness :
    ((runEvents initState [Ev.enq "U"]).startLog =
      (runEvents initState [Ev.enq "U"]).compLog ++
        inFlightMoves (runEvents initState [Ev.enq "U"])) ∧
    processQueue initState = initState :=
  ⟨scheduler_serializes_moves.1 [Ev.enq "U"],
   scheduler_serializes_moves.2 initState (Or.inl rfl)⟩

/-- One `update` call does not change what `finish` commits. -/
theorem finish_after_update (a : CubeAnimation) (delta : ℚ) (g : List Mesh) :
    ((a.update delta).1.finish g).2.1 = (a.finish g).2.1 := by
  cases h : a.rotationGroup <;>
    simp [CubeAnimation.update, CubeAnimation.finish, h, commitMesh]

/-- Any sequence of `update` calls — any number of frames, of any sizes —
leaves the committed group unchanged: the eased display trajectory never
feeds into the commit. -/
theorem finish_applyUpdates (ds : List ℚ) (a : CubeAnimation) (g : List Mesh) :
    ((applyUpdates a ds).finish g).2.1 = (a.finish g).2.1 := by
  induction ds generalizing a with
  | nil => rfl
  | cons d ds ih =>
    rw [applyUpdates]
    exact (ih (a.update d).1).trans (finish_after_update a d g)

/-- For a real axis (0, 1 or 2), the rotation matrix `finish` builds
(`makeRotationAxis` with exact cosine 0 and sine `direction`) acts on vectors
exactly as the textbook algebraic 90°-rotation with sign `direction`. -/
theorem rotationMatrix_is_algebraic (axis : Nat) (h : axis < 3) (d : ℤ)
    (v : Vec3) : (rotationMatrix axis d).mulVec v = algebraicRot90 axis d v := by
  interval_cases axis <;>
    · simp only [rotationMatrix, makeRotationAxis, axisVector, Mat3.mulVec,
        algebraicRot90, qadd_eq, qmul_eq, qsub_eq, qneg_eq]
      norm_num

/-- C1: on commit, every cubie detached into the pivot lands at exactly the
algebraic 90°-rotation (about the move's axis, sign from `direction`) of its
pre-rotation position, with each coordinate then rounded to the nearest
integer; and the committed grid is independent of the eased display
trajectory — the same for every list of frame deltas, whatever their number
and sizes. -/
theorem commit_is_rounded_algebraic_rotation (g : List Mesh) (axis : Nat)
    (index direction : ℤ) (deltas : List ℚ) (h : axis < 3) :
    (((applyUpdates (CubeAnimation.mk' g axis index direction).1 deltas).finish
        (CubeAnimation.mk' g axis index direction).2).2.1).map (fun m => (m.id, m.pos)) =
      (CubeAnimation.mk' g axis index direction).2.map (fun m => (m.id, m.pos)) ++
        (createRotationGroup g axis index).2.children.map
          (fun d => (d.mesh.id, roundVec (algebraicRot90 axis direction d.origPos))) := by
  rw [finish_applyUpdates]
  simp only [CubeAnimation.mk', CubeAnimation.finish, commitMesh,
    List.map_append, List.map_map]
  congr 1
  apply List.map_congr_left
  intro d _
  simp [commitMesh, rotationMatrix_is_algebraic axis h direction]

/-- Witness for C1: the `"R"` move on the initial grid, animated with three
uneven frames. -/
theorem commit_is_rounded_algebraic_rotation_witness :
    (((applyUpdates (CubeAnimation.mk' initialGrid 0 1 (-1)).1
          [mkRat 3 20, mkRat 3 20, 1]).finish
        (CubeAnimation.mk' initialGrid 0 1 (-1)).2).2.1).map (fun m => (m.id, m.pos)) =
      (CubeAnimation.mk' initialGrid 0 1 (-1)).2.map (fun m => (m.id, m.pos)) ++
        (createRotationGroup initialGrid 0 1).2.children.map
          (fun d => (d.mesh.id, roundVec (algebraicRot90 0 (-1) d.origPos))) :=
  commit_is_rounded_algebraic_rotation initialGrid 0 1 (-1)
    [mkRat 3 20, mkRat 3 20, 1] (by decide)
